import Mathlib

/-!
Verification of the webgpu-memory-benchmark allocation engine.

Shallow embedding of the core of the `webgpu-memory-benchmark` repository:
the formatting / data-generation utilities (`src/utils/formatters.js`), the
texture-grid renderers (`src/renderers/WebGPURenderer.js`,
`src/renderers/WebGL2Renderer.js`), the backend resource lifecycle
(`src/core/BaseBenchmark.js`, `src/benchmarks/WebGPUMemoryBenchmark.js`,
`src/benchmarks/WebGL2MemoryBenchmark.js`) and the escalation driver
(`src/ui/BenchmarkController.js`).

Modelling conventions:
* JavaScript numbers that stay integral are modelled as `Nat`; the gradual
  test's allocation size (multiplied by `1.1`) and the running byte total are
  modelled as `ℚ` (exact arithmetic in place of IEEE doubles).
* `Math.random()` streams are modelled as explicit oracle functions
  `rng : Nat → Nat`; `Math.floor(Math.random() * k)` becomes `rng i % k`.
* `Math.ceil(Math.sqrt n)` on a `Nat` is the least `s` with `n ≤ s * s`, and
  `Math.floor(Math.log n / Math.log 1024)` is the number of times `1024`
  divides into `n`; both are implemented as fuel-bounded structural
  recursions so that they evaluate by kernel reduction.
* The DOM / GPU side effects (log lines, metric widgets, native handles) are
  either dropped or recorded as explicit events in a trace.
-/

/- `Rat.add`/`Rat.mul`/`Rat.inv`/`Rat.sub` are `@[irreducible]` by default,
which keeps `decide` from evaluating concrete `ℚ` arithmetic during
elaboration.  Restoring the default reducibility is purely an elaboration
concern: the kernel ignores reducibility attributes entirely, so checked
proofs are unaffected. -/
set_option allowUnsafeReducibility true
attribute [semireducible] Rat.add Rat.mul Rat.inv Rat.sub

namespace WebGPUMemBench

/-! ## Formatting utilities (`src/utils/formatters.js`)

`formatBytes` in the source:
```js
if (bytes === 0) return '0 B';
const k = 1024;
const sizes = ['B', 'KB', 'MB', 'GB', 'TB'];
const i = Math.floor(Math.log(bytes) / Math.log(k));
return parseFloat((bytes / Math.pow(k, i)).toFixed(2)) + ' ' + sizes[i];
```
-/

/-- The unit labels of `formatBytes` (`sizes` in the source). -/
def byteUnits : List String := ["B", "KB", "MB", "GB", "TB"]

/-- Fuel-bounded loop computing `Math.floor(Math.log m / Math.log 1024)`:
how often `1024` divides into `m`. -/
def log1024Go : Nat → Nat → Nat
  | 0, _ => 0
  | fuel + 1, m => if m < 1024 then 0 else log1024Go fuel (m / 1024) + 1

/-- Computes `Math.floor(Math.log bytes / Math.log 1024)` for `bytes ≥ 1`. -/
def log1024 (bytes : Nat) : Nat := log1024Go bytes bytes

/-- Renders a number of hundredths the way
`parseFloat(x.toFixed(2)).toString()` renders the value `x = n / 100`:
two decimal digits with trailing zeros (and a trailing decimal point)
removed. -/
def formatHundredths (n : Nat) : String :=
  let whole := n / 100
  let frac := n % 100
  if frac = 0 then toString whole
  else if frac % 10 = 0 then toString whole ++ "." ++ toString (frac / 10)
  else if frac < 10 then toString whole ++ ".0" ++ toString frac
  else toString whole ++ "." ++ toString frac

/-- Function `formatBytes` from `src/utils/formatters.js`.  The scaled value
`bytes / 1024 ^ i` rounded to hundredths is computed exactly
(`toFixed(2)` rounds to nearest; all claim scenarios are exact). -/
def formatBytes (bytes : Nat) : String :=
  if bytes = 0 then "0 B"
  else
    let i := log1024 bytes
    let hundredths := (bytes * 200 / 1024 ^ i + 1) / 2
    formatHundredths hundredths ++ " " ++ byteUnits.getD i "undefined"

/-! ## Random buffer payloads (`createRandomBufferData`)

```js
const alignedSize = Math.floor(size / 4) * 4;
const data = new Uint8Array(alignedSize);
if (alignedSize <= 1024 * 1024) {
  // fill with random 32-bit words, little endian
} else {
  // fill first 1MB with random words, then copy that block repeatedly
}
```
-/

/-- Little-endian byte `j` of the 32-bit word `w`
(`(value >> 8*j) & 0xFF` in the source). -/
def bufWordByte (w j : Nat) : Nat := w / 2 ^ (8 * j) % 256

/-- Byte `i` of the random word fill: word index `i / 4` is drawn as
`Math.floor(Math.random() * 4294967295)`, then byte `i % 4` is extracted
little-endian. -/
def bufByte (rng : Nat → Nat) (i : Nat) : Nat :=
  bufWordByte (rng (i / 4) % 4294967295) (i % 4)

/-- The tiling loop of `createRandomBufferData`: while `remaining` bytes are
missing, copy `min block.length remaining` bytes from the start of `block`
(`data.set(data.subarray(0, copySize), i)`).  The first argument is fuel
bounding the number of copies; each copy moves at least one byte, so
`remaining` fuel always suffices. -/
def tileListGo (block : List Nat) : Nat → Nat → List Nat
  | 0, _ => []
  | fuel + 1, remaining =>
    if remaining = 0 then []
    else
      block.take (min block.length remaining) ++
        tileListGo block fuel (remaining - min block.length remaining)

/-- Tile copies of `block` until `remaining` bytes have been produced. -/
def tileList (block : List Nat) (remaining : Nat) : List Nat :=
  tileListGo block remaining remaining

/-- Function `createRandomBufferData` from `src/utils/formatters.js`. -/
def createRandomBufferData (rng : Nat → Nat) (size : Nat) : List Nat :=
  let alignedSize := size / 4 * 4
  if alignedSize ≤ 1024 * 1024 then
    (List.range alignedSize).map (bufByte rng)
  else
    let pattern := (List.range (1024 * 1024)).map (bufByte rng)
    pattern ++ tileList pattern (alignedSize - 1024 * 1024)

/-- The buffer fill of `WebGL2MemoryBenchmark.allocateBuffer`: a fresh
`Uint8Array(size)` filled with `Math.floor(Math.random() * 256)` per byte
(it does *not* call `createRandomBufferData`). -/
def webgl2BufferFill (rng : Nat → Nat) (size : Nat) : List Nat :=
  (List.range size).map (fun i => rng i % 256)

/-- The backend variants of the benchmark. -/
inductive Variant
  | webgpu
  | webgl2
deriving DecidableEq

/-- The payload each backend variant uploads into a freshly created buffer
of requested byte size `size`. -/
def uploadedPayload (v : Variant) (rng : Nat → Nat) (size : Nat) : List Nat :=
  match v with
  | .webgpu => createRandomBufferData rng size
  | .webgl2 => webgl2BufferFill rng size

/-! ## Grid rendering (`renderTextureGrid` in both renderers)

```js
const gridSize = Math.ceil(Math.sqrt(textureCount));
for (let i = 0; i < Math.min(textureCount, gridSize * gridSize); i++) {
  const texture = textures[i];
  if (!texture) continue;
  const row = Math.floor(i / gridSize);
  const col = i % gridSize;
  // ... draw texture i into cell (row, col)
}
```
-/

/-- Fuel-bounded search for the least `s` with `n ≤ s * s`. -/
def ceilSqrtGo (n : Nat) : Nat → Nat → Nat
  | 0, s => s
  | fuel + 1, s => if n ≤ s * s then s else ceilSqrtGo n fuel (s + 1)

/-- Computes `Math.ceil(Math.sqrt n)` on a natural number: the least `s` with
`n ≤ s * s`. -/
def ceilSqrt (n : Nat) : Nat := ceilSqrtGo n n 0

/-- The ordered list of draw commands `(i, row, col)` issued by one
`renderTextureGrid` pass over the texture sequence.  A `none` entry models a
falsy texture handle, skipped by `if (!texture) continue`; the benchmark
only ever stores real handles. -/
def renderTextureGrid (textures : List (Option Nat)) : List (Nat × Nat × Nat) :=
  if textures.length = 0 then []
  else
    let gridSize := ceilSqrt textures.length
    (List.range (min textures.length (gridSize * gridSize))).filterMap fun i =>
      match textures.getD i none with
      | none => none
      | some _ => some (i, i / gridSize, i % gridSize)

/-! ## Backend state and resource lifecycle (`BaseBenchmark` and subclasses)

Per-backend mutable state (`this.buffers`, `this.textures`,
`this.allocatedMemory`, `this.isRunning`, `this.renderInterval`,
`this.lastAllocationTime`).  Buffer sizes and the byte total are `ℚ`
because the gradual test requests sizes grown by `× 1.1`. -/

structure BenchState where
  buffers : List ℚ
  textures : List (Nat × Nat)
  allocatedMemory : ℚ
  isRunning : Bool
  renderInterval : Bool
  lastAllocationTime : Option Nat
deriving DecidableEq

/-- The state of a freshly constructed benchmark backend. -/
def initState : BenchState :=
  { buffers := []
    textures := []
    allocatedMemory := 0
    isRunning := false
    renderInterval := false
    lastAllocationTime := none }

/-- Declared byte size of a `width × height` RGBA texture
(`width * height * 4` in both backends). -/
def textureBytes (w h : Nat) : Nat := w * h * 4

/-- State effect of a successful `allocateBuffer(size)` (identical in both
backends): push the handle, add `size` to the running total, stamp
`lastAllocationTime`. -/
def allocateBufferState (size : ℚ) (now : Nat) (s : BenchState) : BenchState :=
  { s with buffers := s.buffers ++ [size]
           allocatedMemory := s.allocatedMemory + size
           lastAllocationTime := some now }

/-- State effect of a successful `allocateTexture(width, height)`. -/
def allocateTextureState (w h : Nat) (now : Nat) (s : BenchState) : BenchState :=
  { s with textures := s.textures ++ [(w, h)]
           allocatedMemory := s.allocatedMemory + (textureBytes w h : ℚ)
           lastAllocationTime := some now }

/-- State effect of `clearMemory()`: stop the periodic redraw, release every
resource, reset both sequences and the byte total. -/
def clearMemoryState (s : BenchState) : BenchState :=
  { s with buffers := []
           textures := []
           allocatedMemory := 0
           renderInterval := false }

/-- State effect of `stopTest()`: clear the run flag and cancel the periodic
redraw; all resource state is left untouched. -/
def stopTestState (s : BenchState) : BenchState :=
  { s with isRunning := false, renderInterval := false }

/-- State effect of `startTextureDisplay()`: (re)arm the periodic redraw. -/
def startTextureDisplayState (s : BenchState) : BenchState :=
  { s with renderInterval := true }

/-- The public mutating entry points of a backend, as invocable operations. -/
inductive Op
  | allocBuffer (size : ℚ) (now : Nat)
  | allocTexture (w h : Nat) (now : Nat)
  | clearMemory
  | stopTest
  | startDisplay
  | stopDisplay
deriving DecidableEq

/-- Apply one backend operation to the state. -/
def applyOp (o : Op) (s : BenchState) : BenchState :=
  match o with
  | .allocBuffer size now => allocateBufferState size now s
  | .allocTexture w h now => allocateTextureState w h now s
  | .clearMemory => clearMemoryState s
  | .stopTest => stopTestState s
  | .startDisplay => startTextureDisplayState s
  | .stopDisplay => { s with renderInterval := false }

/-- Run a sequence of backend operations from the freshly constructed
state. -/
def runOps (ops : List Op) : BenchState :=
  ops.foldl (fun s o => applyOp o s) initState

/-- Sum of the declared sizes of all tracked resources: each tracked
buffer's requested byte size plus `width * height * 4` per tracked
texture. -/
def declaredSum (s : BenchState) : ℚ :=
  s.buffers.sum + (s.textures.map fun p => (textureBytes p.1 p.2 : ℚ)).sum

/-! ## The escalation driver (`BenchmarkController`)

Both test loops are embedded as fuel-bounded iterations of a step function
over the backend state plus the loop locals (`allocationSize`, and a
counter of allocation calls used to drive the failure oracle and the
`lastAllocationTime` clock).  Each step returns the ordered list of
observable events of that iteration. -/

/-- Observable events of a test run. -/
inductive Ev
  | allocB (size : ℚ)
  | allocT (side : Nat)
  | startDisplay
  | check (total : ℚ)
  | throwEv
  | logError
  | stopTestEv (bytes : ℚ) (nbuf ntex : Nat)
deriving DecidableEq

/-- How a fuel-bounded loop run ended. -/
inductive ExitKind
  | stopped
  | limit
  | threw
  | fuelOut
deriving DecidableEq

/-- Loop-local state: the backend, the gradual test's current
`allocationSize`, and the number of allocation calls made so far. -/
structure LoopSt where
  bench : BenchState
  allocSize : ℚ
  callIdx : Nat
deriving DecidableEq

/-- Failure oracle: the allocation call with index `i` throws
iff `failAt = some i`. -/
def callFails (failAt : Option Nat) (i : Nat) : Bool := failAt = some i

/-- Stop threshold of both loops:
`allocatedMemory > 16000 * 1024 * 1024` ends the test. -/
def memoryLimit : ℚ := 16000 * 1024 * 1024

/-- Initial gradual allocation size: 1 MiB. -/
def gradualStartSize : ℚ := 1024 * 1024

/-- Cap on the gradual allocation size: 256 MiB. -/
def bufferSizeCap : ℚ := 256 * 1024 * 1024

/-- Growth factor `1.1` applied every 10 buffers. -/
def growFactor : ℚ := 11 / 10

/-- Fixed stress-mode buffer size: 16 MiB. -/
def stressBufferSize : ℚ := 16 * 1024 * 1024

/-- Gradual-mode texture side as a function of the texture count before the
allocation (the cascade `512 / >5 → 1024 / >15 → 2048 / >25 → 4096`). -/
def gradualTextureSide (count : Nat) : Nat :=
  if count > 25 then 4096
  else if count > 15 then 2048
  else if count > 5 then 1024
  else 512

/-- Stress-mode texture side (`2048 / >10 → 4096 / >20 → 8192`). -/
def stressTextureSide (count : Nat) : Nat :=
  if count > 20 then 8192
  else if count > 10 then 4096
  else 2048

/-- One iteration of the gradual loop body (`startMemoryTest`'s `while`):
allocate a buffer of the current size, then a square texture whose side is
the step function of the current texture count, start the display on the
first texture, grow the size every 10 buffers, then check the byte limit.
Returns the iteration's events, the next loop state, and `some exit` if the
loop ends here (`none` means: continue). -/
def gradualStep (failAt : Option Nat) (st : LoopSt) :
    List Ev × LoopSt × Option ExitKind :=
  if callFails failAt st.callIdx then
    ([.allocB st.allocSize, .throwEv], st, some .threw)
  else
    let b1 := allocateBufferState st.allocSize st.callIdx st.bench
    let side := gradualTextureSide b1.textures.length
    if callFails failAt (st.callIdx + 1) then
      ([.allocB st.allocSize, .allocT side, .throwEv],
       ⟨b1, st.allocSize, st.callIdx + 1⟩, some .threw)
    else
      let b2 := allocateTextureState side side (st.callIdx + 1) b1
      let b3 := if b2.textures.length = 1 then startTextureDisplayState b2 else b2
      let newSize :=
        if b3.buffers.length % 10 = 0 then min (st.allocSize * growFactor) bufferSizeCap
        else st.allocSize
      ([.allocB st.allocSize, .allocT side] ++
          (if b2.textures.length = 1 then [Ev.startDisplay] else []) ++
          [.check b3.allocatedMemory],
       ⟨b3, newSize, st.callIdx + 2⟩,
       if memoryLimit < b3.allocatedMemory then some .limit else none)

/-- One `(buffer, texture)` pair of the stress loop.  The calls are started
synchronously even when an earlier promise of the same batch has already
been rejected, so a failed call skips only its own state effect; the pair
reports whether either call threw. -/
def stressPair (failAt : Option Nat) (st : LoopSt) : List Ev × LoopSt × Bool :=
  let f1 := callFails failAt st.callIdx
  let b1 := if f1 then st.bench else allocateBufferState stressBufferSize st.callIdx st.bench
  let side := stressTextureSide b1.textures.length
  let f2 := callFails failAt (st.callIdx + 1)
  let b2 := if f2 then b1 else allocateTextureState side side (st.callIdx + 1) b1
  ([.allocB stressBufferSize, .allocT side], ⟨b2, st.allocSize, st.callIdx + 2⟩, f1 || f2)

/-- Loop state after the three stress pairs of one iteration. -/
def stressBatch (failAt : Option Nat) (st : LoopSt) : LoopSt :=
  (stressPair failAt (stressPair failAt (stressPair failAt st).2.1).2.1).2.1

/-- Did any of the six batched calls of this stress iteration throw? -/
def stressBatchFailed (failAt : Option Nat) (st : LoopSt) : Bool :=
  (stressPair failAt st).2.2 || (stressPair failAt (stressPair failAt st).2.1).2.2 ||
    (stressPair failAt (stressPair failAt (stressPair failAt st).2.1).2.1).2.2

/-- The stress loop's display-start condition: at least one texture exists
and no redraw interval is armed yet. -/
def stressDisp (failAt : Option Nat) (st : LoopSt) : Bool :=
  decide (1 ≤ (stressBatch failAt st).bench.textures.length) &&
    !(stressBatch failAt st).bench.renderInterval

/-- Backend state at the end of a successful stress iteration (after the
optional display start). -/
def stressPost (failAt : Option Nat) (st : LoopSt) : BenchState :=
  if stressDisp failAt st then startTextureDisplayState (stressBatch failAt st).bench
  else (stressBatch failAt st).bench

/-- One iteration of the stress loop body (`startStressTest`'s `while`):
three buffer/texture pairs, `Promise.all` (which rethrows if any call
failed), display start once at least one texture exists and no interval is
armed, then the byte-limit check. -/
def stressStep (failAt : Option Nat) (st : LoopSt) :
    List Ev × LoopSt × Option ExitKind :=
  let evs := (stressPair failAt st).1 ++ (stressPair failAt (stressPair failAt st).2.1).1 ++
    (stressPair failAt (stressPair failAt (stressPair failAt st).2.1).2.1).1
  if stressBatchFailed failAt st then
    (evs ++ [.throwEv], stressBatch failAt st, some .threw)
  else
    (evs ++ (if stressDisp failAt st then [Ev.startDisplay] else []) ++
        [.check (stressPost failAt st).allocatedMemory],
     ⟨stressPost failAt st, (stressBatch failAt st).allocSize,
       (stressBatch failAt st).callIdx⟩,
     if memoryLimit < (stressPost failAt st).allocatedMemory then some .limit else none)

/-- Fuel-bounded escalation loop: run `step` while the backend's run flag is
set, concatenating iteration traces, until an iteration reports an exit. -/
def runLoop (step : LoopSt → List Ev × LoopSt × Option ExitKind) :
    Nat → LoopSt → List Ev × LoopSt × ExitKind
  | 0, st => ([], st, .fuelOut)
  | fuel + 1, st =>
    if st.bench.isRunning = false then ([], st, .stopped)
    else
      match step st with
      | (evs, st1, some ex) => (evs, st1, ex)
      | (evs, st1, none) =>
        let (r, st', ex) := runLoop step fuel st1
        (evs ++ r, st', ex)

/-- Shared wrapper shape of `startMemoryTest` and `startStressTest`: a
no-op if a test is already running; otherwise set the run flag, run the
loop, log an error if it threw, and call `stopTest()` (which logs the final
byte total and the final buffer/texture counts, recorded on the
`stopTestEv` event). -/
def runTest (step : LoopSt → List Ev × LoopSt × Option ExitKind) (fuel : Nat)
    (s : BenchState) : List Ev × BenchState :=
  if s.isRunning then ([], s)
  else
    let r := runLoop step fuel ⟨{ s with isRunning := true }, gradualStartSize, 0⟩
    ((r.1 ++ (if r.2.2 = .threw then [Ev.logError] else [])) ++
        [.stopTestEv r.2.1.bench.allocatedMemory r.2.1.bench.buffers.length
          r.2.1.bench.textures.length],
     stopTestState r.2.1.bench)

/-- Method `BenchmarkController.startMemoryTest`. -/
def startMemoryTest (failAt : Option Nat) (fuel : Nat) (s : BenchState) :
    List Ev × BenchState :=
  runTest (gradualStep failAt) fuel s

/-- Method `BenchmarkController.startStressTest`. -/
def startStressTest (failAt : Option Nat) (fuel : Nat) (s : BenchState) :
    List Ev × BenchState :=
  runTest (stressStep failAt) fuel s

/-- The requested gradual buffer size after `n` successful buffer
allocations, starting from an empty backend: 1 MiB, multiplied by `1.1` and
capped at 256 MiB after every 10th buffer. -/
def gradualSizeAfter : Nat → ℚ
  | 0 => gradualStartSize
  | n + 1 =>
    if (n + 1) % 10 = 0 then min (gradualSizeAfter n * growFactor) bufferSizeCap
    else gradualSizeAfter n

/-- The requested buffer sizes of a trace, in order. -/
def allocBSizes (evs : List Ev) : List ℚ :=
  evs.filterMap fun e => match e with | .allocB q => some q | _ => none

/-- The requested texture sides of a trace, in order. -/
def allocTSides (evs : List Ev) : List Nat :=
  evs.filterMap fun e => match e with | .allocT n => some n | _ => none

/-- Is this event an allocation attempt? -/
def isAllocEv : Ev → Bool
  | .allocB _ => true
  | .allocT _ => true
  | _ => false

/-- Is this event a `stopTest()` call? -/
def isStopEv : Ev → Bool
  | .stopTestEv _ _ _ => true
  | _ => false

/-- Is this event a post-iteration limit check? -/
def isCheckEv : Ev → Bool
  | .check _ => true
  | _ => false

/-- A backend state already holding more than the 16,000 MiB stop threshold
(used to exercise the limit check on concrete runs). -/
def overLimitState : BenchState :=
  { initState with allocatedMemory := 16000 * 1024 * 1024 + 1 }

/-! ## Helper lemmas -/

/-- In `l ++ [b]` where no element of `l` satisfies `P` and the final
element decomposes as `pre ++ c :: post` with `P c`, the decomposition is
forced: `c` is the final element and `post` is empty. -/
theorem append_singleton_decomp {α} (P : α → Prop) :
    ∀ (l : List α) {b : α} {pre post : List α} {c : α}, (∀ e ∈ l, ¬ P e) →
      l ++ [b] = pre ++ c :: post → P c → pre = l ∧ c = b ∧ post = [] := by
  intro l
  induction l with
  | nil =>
    intro b pre post c _ h _
    cases pre with
    | nil => simpa using h.symm
    | cons p pt =>
      simp only [List.nil_append, List.cons_append, List.cons.injEq] at h
      exact absurd h.2.symm (by simp)
  | cons x xt ih =>
    intro b pre post c hl h hc
    cases pre with
    | nil =>
      simp only [List.cons_append, List.nil_append, List.cons.injEq] at h
      exact absurd (h.1 ▸ hc) (hl x (by simp))
    | cons p pt =>
      simp only [List.cons_append, List.cons.injEq] at h
      obtain ⟨h1, h2, h3⟩ := ih (fun e he => hl e (by simp [he])) h.2 hc
      exact ⟨by simp [h.1, h1], h2, h3⟩

/-- Splitting a concatenation at a distinguished element: the element lies
either in the left part or in the right part. -/
theorem append_eq_append_cons {α} :
    ∀ (xs : List α) {ys pre post : List α} {a : α}, xs ++ ys = pre ++ a :: post →
      (∃ mid, xs = pre ++ a :: mid ∧ post = mid ++ ys) ∨
      (∃ pre2, pre = xs ++ pre2 ∧ ys = pre2 ++ a :: post) := by
  intro xs
  induction xs with
  | nil =>
    intro ys pre post a h
    exact Or.inr ⟨pre, by simp, by simpa using h⟩
  | cons x xt ih =>
    intro ys pre post a h
    cases pre with
    | nil =>
      simp only [List.cons_append, List.nil_append, List.cons.injEq] at h
      exact Or.inl ⟨xt, by simp [h.1], h.2.symm⟩
    | cons p pt =>
      simp only [List.cons_append, List.cons.injEq] at h
      rcases ih h.2 with ⟨mid, h1, h2⟩ | ⟨pre2, h1, h2⟩
      · exact Or.inl ⟨mid, by simp [h.1, h1], h2⟩
      · exact Or.inr ⟨pre2, by simp [h.1, h1], h2⟩

/-! ## Properties of the data-generation utilities -/

/-- The tiling loop produces exactly `remaining` bytes (given enough fuel
and a nonempty block). -/
theorem tileListGo_length {block : List Nat} (hb : block.length ≠ 0) :
    ∀ fuel r, r ≤ fuel → (tileListGo block fuel r).length = r := by
  intro fuel
  induction fuel with
  | zero =>
    intro r hr
    have h0 : r = 0 := Nat.le_zero.mp hr
    subst h0
    rfl
  | succ f ih =>
    intro r hr
    by_cases h0 : r = 0
    · simp [tileListGo, h0]
    · have hmin1 : 1 ≤ min block.length r := by
        refine le_min (Nat.one_le_iff_ne_zero.2 hb) (Nat.one_le_iff_ne_zero.2 h0)
      have hle : min block.length r ≤ block.length := Nat.min_le_left _ _
      have hler : min block.length r ≤ r := Nat.min_le_right _ _
      simp only [tileListGo, h0, if_false, List.length_append, List.length_take]
      rw [ih (r - min block.length r) (by omega)]
      omega

/-- Every byte the tiling loop produces is read from the start of the
block: byte `i` of the tiled region is byte `i % block.length` of the
block. -/
theorem tileListGo_getD {block : List Nat} (hb : block.length ≠ 0) :
    ∀ fuel r i, r ≤ fuel → i < r →
      (tileListGo block fuel r).getD i 0 = block.getD (i % block.length) 0 := by
  intro fuel
  induction fuel with
  | zero => intro r i hr hi; omega
  | succ f ih =>
    intro r i hr hi
    have h0 : r ≠ 0 := by omega
    have hle : min block.length r ≤ block.length := Nat.min_le_left _ _
    have hmin1 : 1 ≤ min block.length r := by
      refine le_min (Nat.one_le_iff_ne_zero.2 hb) (Nat.one_le_iff_ne_zero.2 h0)
    simp only [tileListGo, h0, if_false]
    by_cases hcase : i < min block.length r
    · have htk : i < (block.take (min block.length r)).length := by
        simp [List.length_take]; omega
      rw [List.getD_eq_getElem?_getD, List.getElem?_append_left htk,
        List.getElem?_take, if_pos hcase, Nat.mod_eq_of_lt (by omega),
        ← List.getD_eq_getElem?_getD]
    · have htk : (block.take (min block.length r)).length ≤ i := by
        simp only [List.length_take]
        omega
      have hlen : (block.take (min block.length r)).length = min block.length r := by
        simp only [List.length_take]
        omega
      have hmineq : min block.length r = block.length := by
        rcases Nat.le_total block.length r with h | h
        · exact Nat.min_eq_left h
        · have hrr : min block.length r = r := Nat.min_eq_right h
          omega
      rw [List.getD_eq_getElem?_getD, List.getElem?_append_right htk, hlen,
        ← List.getD_eq_getElem?_getD,
        ih (r - min block.length r) (i - min block.length r) (by omega) (by omega)]
      congr 1
      rw [hmineq]
      conv_rhs => rw [show i = i - block.length + block.length by omega]
      rw [Nat.add_mod_right]

/-- Lemma: `createRandomBufferData` always returns `size / 4 * 4` bytes. -/
theorem createRandomBufferData_length (rng : Nat → Nat) (size : Nat) :
    (createRandomBufferData rng size).length = size / 4 * 4 := by
  unfold createRandomBufferData
  by_cases h : size / 4 * 4 ≤ 1024 * 1024
  · simp [h]
  · have hb : (1024 * 1024 : Nat) ≠ 0 := by norm_num
    simp only [h, if_false, List.length_append, List.length_map, List.length_range]
    rw [tileList, tileListGo_length (by simpa using hb) _ _ le_rfl]
    omega

/-- Beyond the first 1 MiB block, `createRandomBufferData` repeats that
block with period `2 ^ 20`. -/
theorem createRandomBufferData_periodic (rng : Nat → Nat) (size : Nat)
    (hbig : 1024 * 1024 < size / 4 * 4) (i : Nat) (hlo : 1024 * 1024 ≤ i)
    (hhi : i < size / 4 * 4) :
    (createRandomBufferData rng size).getD i 0 =
      (createRandomBufferData rng size).getD (i % (1024 * 1024)) 0 := by
  unfold createRandomBufferData
  have h : ¬ size / 4 * 4 ≤ 1024 * 1024 := by omega
  simp only [h, if_false]
  set pattern := (List.range (1024 * 1024)).map (bufByte rng) with hpat
  have hplen : pattern.length = 1024 * 1024 := by simp [hpat]
  have hpne : pattern.length ≠ 0 := by omega
  have lhs : (pattern ++ tileList pattern (size / 4 * 4 - 1024 * 1024)).getD i 0 =
      pattern.getD (i % (1024 * 1024)) 0 := by
    have harg : (i - 1024 * 1024) % (1024 * 1024) = i % (1024 * 1024) := by
      conv_rhs => rw [show i = i - 1024 * 1024 + 1024 * 1024 by omega]
      rw [Nat.add_mod_right]
    rw [List.getD_eq_getElem?_getD, List.getElem?_append_right (by omega),
      ← List.getD_eq_getElem?_getD, hplen, tileList,
      tileListGo_getD hpne _ _ _ le_rfl (by omega), hplen, harg]
  have rhs : (pattern ++ tileList pattern (size / 4 * 4 - 1024 * 1024)).getD
      (i % (1024 * 1024)) 0 = pattern.getD (i % (1024 * 1024)) 0 := by
    have hmod : i % (1024 * 1024) < pattern.length := by
      rw [hplen]; exact Nat.mod_lt _ (by norm_num)
    rw [List.getD_eq_getElem?_getD, List.getElem?_append_left hmod,
      ← List.getD_eq_getElem?_getD]
  rw [lhs, rhs]

/-! ## Renderer lemmas -/

/-- The fuel-bounded search returns a value whose square dominates `n`,
provided the initial bound does. -/
theorem ceilSqrtGo_le_sq (n : Nat) :
    ∀ fuel s, n ≤ (s + fuel) * (s + fuel) → n ≤ ceilSqrtGo n fuel s * ceilSqrtGo n fuel s := by
  intro fuel
  induction fuel with
  | zero => intro s h; simpa using h
  | succ f ih =>
    intro s h
    by_cases hs : n ≤ s * s
    · simpa [ceilSqrtGo, hs] using hs
    · simp only [ceilSqrtGo, hs, if_false]
      refine ih (s + 1) ?_
      rw [show s + 1 + f = s + (f + 1) from by omega]
      exact h

/-- Lemma `n ≤ ceilSqrt n * ceilSqrt n`: the grid has at least as many cells as
textures. -/
theorem le_ceilSqrt_sq (n : Nat) : n ≤ ceilSqrt n * ceilSqrt n := by
  have : n ≤ (0 + n) * (0 + n) := by
    rcases Nat.eq_zero_or_pos n with h | h
    · simp [h]
    · simpa using Nat.le_mul_of_pos_left n h
  exact ceilSqrtGo_le_sq n n 0 this

/-- With only real (non-`none`) handles in the sequence, one render pass is
exactly the in-order draw list over `[0, min N (side * side))`. -/
theorem renderTextureGrid_eq_map (texs : List (Option Nat)) (hne : texs.length ≠ 0)
    (hall : ∀ t ∈ texs, t ≠ none) :
    renderTextureGrid texs =
      (List.range (min texs.length (ceilSqrt texs.length * ceilSqrt texs.length))).map
        (fun i => (i, i / ceilSqrt texs.length, i % ceilSqrt texs.length)) := by
  unfold renderTextureGrid
  rw [if_neg hne]
  rw [List.filterMap_eq_map_iff_forall_eq_some]
  intro i hi
  have hilt : i < texs.length := by
    have := List.mem_range.1 hi
    omega
  have hmem : texs.getD i none ∈ texs := by
    rw [List.getD_eq_getElem?_getD, List.getElem?_eq_getElem hilt]
    exact List.getElem_mem _
  rcases h : texs.getD i none with _ | v
  · exact absurd h (by simpa [h] using hall _ hmem)
  · simp

/-- All draw commands are in-bounds, in order, with the row/column layout
of the source. -/
theorem renderTextureGrid_length (texs : List (Option Nat)) (hne : texs.length ≠ 0)
    (hall : ∀ t ∈ texs, t ≠ none) :
    (renderTextureGrid texs).length = texs.length := by
  rw [renderTextureGrid_eq_map texs hne hall]
  simp [Nat.min_eq_left (le_ceilSqrt_sq texs.length)]

/-! ## Backend-state lemmas -/

/-- Every backend operation preserves the accounting invariant
`allocatedMemory = declaredSum`. -/
theorem applyOp_declaredSum (o : Op) (s : BenchState)
    (h : s.allocatedMemory = declaredSum s) :
    (applyOp o s).allocatedMemory = declaredSum (applyOp o s) := by
  cases o with
  | allocBuffer size now =>
    simp [applyOp, allocateBufferState, declaredSum] at h ⊢
    rw [h]; ring
  | allocTexture w hh now =>
    simp [applyOp, allocateTextureState, declaredSum] at h ⊢
    rw [h]; ring
  | clearMemory => simp [applyOp, clearMemoryState, declaredSum]
  | stopTest => simpa [applyOp, stopTestState, declaredSum] using h
  | startDisplay => simpa [applyOp, startTextureDisplayState, declaredSum] using h
  | stopDisplay => simpa [applyOp, declaredSum] using h

/-- The accounting invariant holds after any operation sequence from the
fresh state. -/
theorem runOps_declaredSum (ops : List Op) :
    (runOps ops).allocatedMemory = declaredSum (runOps ops) := by
  suffices hgen : ∀ s, s.allocatedMemory = declaredSum s →
      (ops.foldl (fun s o => applyOp o s) s).allocatedMemory =
        declaredSum (ops.foldl (fun s o => applyOp o s) s) by
    exact hgen initState (by simp [initState, declaredSum])
  induction ops with
  | nil => intro s h; simpa using h
  | cons o rest ih =>
    intro s h
    exact ih (applyOp o s) (applyOp_declaredSum o s h)

/-! ## Claim theorems -/

/-- C1. For every backend instance, the running total `allocatedMemory`
equals the sum of the declared sizes of the tracked resources (buffer
request size, `width * height * 4` per texture) at every observation point
between operations: it starts at `0`, `allocateBuffer(size)` adds exactly
`size`, `allocateTexture(w, h)` adds exactly `w * h * 4`, and
`clearMemory()` empties both sequences and resets the total to `0` (after
which allocation repopulates counts from zero, by the same invariant). -/
theorem c1_allocated_memory_invariant :
    (∀ ops : List Op, (runOps ops).allocatedMemory = declaredSum (runOps ops)) ∧
    initState.allocatedMemory = 0 ∧
    initState.buffers = [] ∧ initState.textures = [] ∧
    (∀ (size : ℚ) (now : Nat) (s : BenchState),
      (allocateBufferState size now s).allocatedMemory = s.allocatedMemory + size) ∧
    (∀ (w h now : Nat) (s : BenchState),
      (allocateTextureState w h now s).allocatedMemory =
        s.allocatedMemory + (w * h * 4 : Nat)) ∧
    (∀ s : BenchState, (clearMemoryState s).buffers = [] ∧
      (clearMemoryState s).textures = [] ∧ (clearMemoryState s).allocatedMemory = 0) :=
  ⟨runOps_declaredSum, rfl, rfl, rfl,
   fun _ _ _ => rfl,
   fun w h _ s => by simp [allocateTextureState, textureBytes],
   fun s => ⟨rfl, rfl, rfl⟩⟩

/-- C3, counterexample. At requested size `5`, the WebGL2 backend's
uploaded buffer payload is not `randomBufferPayload(5)`
(= `createRandomBufferData` of the source): the WebGL2 fill has 5 bytes
while the payload truncated to a multiple of 4 has 4 bytes. -/
theorem c3_webgl2_payload_counterexample :
    uploadedPayload Variant.webgl2 (fun _ => 0) 5 ≠
      createRandomBufferData (fun _ => 0) 5 ∧
    (uploadedPayload Variant.webgl2 (fun _ => 0) 5).length = 5 ∧
    (createRandomBufferData (fun _ => 0) 5).length = 4 := by
  refine ⟨?_, by decide, by decide⟩
  decide

/-- C3, amended. `allocateBuffer(size)` creates a buffer of exactly
the requested size, uploads a payload before tracking the handle, adds
`size` to the running total and stamps `lastAllocationTime` — but the
payload differs per backend: the WebGPU variant uploads
`randomBufferPayload(size)` (length `size / 4 * 4`, tiled beyond 1 MiB),
while the WebGL2 variant uploads a fresh array of exactly `size`
independently random bytes. -/
theorem c3_allocate_buffer_upload (rng : Nat → Nat) (size now : Nat) (s : BenchState) :
    uploadedPayload Variant.webgpu rng size = createRandomBufferData rng size ∧
    (uploadedPayload Variant.webgpu rng size).length = size / 4 * 4 ∧
    (uploadedPayload Variant.webgl2 rng size).length = size ∧
    (∀ q : ℚ, (allocateBufferState q now s).buffers = s.buffers ++ [q] ∧
      (allocateBufferState q now s).allocatedMemory = s.allocatedMemory + q ∧
      (allocateBufferState q now s).lastAllocationTime = some now) :=
  ⟨rfl, createRandomBufferData_length rng size,
   by simp [uploadedPayload, webgl2BufferFill],
   fun q => ⟨rfl, rfl, rfl⟩⟩

/-- C5. One render pass over a non-empty sequence of `N` real texture
handles uses grid side `ceilSqrt N`, draws exactly the indices
`[0, min N (side * side))` in sequence order, placing index `i` at
`(row, col) = (i / side, i % side)`; and `ceilSqrt 5 = 3`,
`ceilSqrt 16 = 4`, `ceilSqrt 17 = 5`. -/
theorem c5_texture_grid_layout (texs : List (Option Nat)) (hne : texs ≠ [])
    (hall : ∀ t ∈ texs, t ≠ none) :
    renderTextureGrid texs =
      (List.range (min texs.length (ceilSqrt texs.length * ceilSqrt texs.length))).map
        (fun i => (i, i / ceilSqrt texs.length, i % ceilSqrt texs.length)) ∧
    (∀ c ∈ renderTextureGrid texs,
      c.1 < ceilSqrt texs.length * ceilSqrt texs.length ∧
      c.2.1 = c.1 / ceilSqrt texs.length ∧ c.2.2 = c.1 % ceilSqrt texs.length) ∧
    ceilSqrt 5 = 3 ∧ ceilSqrt 16 = 4 ∧ ceilSqrt 17 = 5 := by
  have hlen : texs.length ≠ 0 := by
    simpa [List.length_eq_zero] using hne
  have hmap := renderTextureGrid_eq_map texs hlen hall
  refine ⟨hmap, ?_, by decide, by decide, by decide⟩
  intro c hc
  rw [hmap] at hc
  obtain ⟨i, hi, rfl⟩ := List.mem_map.1 hc
  have hiR := List.mem_range.1 hi
  exact ⟨by omega, rfl, rfl⟩

/-- Witness for C5 at the concrete sequence of five handles. -/
theorem c5_texture_grid_layout_witness :
    renderTextureGrid [some 0, some 1, some 2, some 3, some 4] =
      (List.range (min 5 (ceilSqrt 5 * ceilSqrt 5))).map
        (fun i => (i, i / ceilSqrt 5, i % ceilSqrt 5)) ∧
    ceilSqrt 5 = 3 :=
  ⟨(c5_texture_grid_layout [some 0, some 1, some 2, some 3, some 4]
      (by decide) (by decide)).1,
   (c5_texture_grid_layout [some 0, some 1, some 2, some 3, some 4]
      (by decide) (by decide)).2.2.1⟩

/-- C10. Since the grid side is the ceiling square root,
`side * side ≥ N` for every `N`, so `min N (side * side) = N` and the
renderer's drop branch is unreachable: every tracked (real) texture is
drawn in a completed pass. -/
theorem c10_grid_never_drops :
    (∀ n : Nat, n ≤ ceilSqrt n * ceilSqrt n ∧ min n (ceilSqrt n * ceilSqrt n) = n) ∧
    (∀ texs : List (Option Nat), texs ≠ [] → (∀ t ∈ texs, t ≠ none) →
      (renderTextureGrid texs).length = texs.length) := by
  constructor
  · intro n
    exact ⟨le_ceilSqrt_sq n, Nat.min_eq_left (le_ceilSqrt_sq n)⟩
  · intro texs hne hall
    exact renderTextureGrid_length texs (by simpa [List.length_eq_zero] using hne) hall

/-- Witness for C10: all 5 textures of a 5-element sequence are drawn. -/
theorem c10_grid_never_drops_witness :
    (renderTextureGrid [some 0, some 1, some 2, some 3, some 4]).length = 5 ∧
    min 5 (ceilSqrt 5 * ceilSqrt 5) = 5 :=
  ⟨c10_grid_never_drops.2 [some 0, some 1, some 2, some 3, some 4]
      (by decide) (by decide),
   (c10_grid_never_drops.1 5).2⟩

/-- C7. `randomBufferPayload(size)` (= `createRandomBufferData`) has
length `size / 4 * 4`, and whenever that truncated length exceeds 1 MiB the
sequence is periodic with period `2 ^ 20`: the byte at every index
`i ≥ 2 ^ 20` equals the byte at `i % 2 ^ 20`. -/
theorem c7_random_buffer_payload (rng : Nat → Nat) (size : Nat) :
    (createRandomBufferData rng size).length = size / 4 * 4 ∧
    (1024 * 1024 < size / 4 * 4 →
      ∀ i, 1024 * 1024 ≤ i → i < size / 4 * 4 →
        (createRandomBufferData rng size).getD i 0 =
          (createRandomBufferData rng size).getD (i % (1024 * 1024)) 0) :=
  ⟨createRandomBufferData_length rng size,
   fun hbig i hlo hhi => createRandomBufferData_periodic rng size hbig i hlo hhi⟩

/-- Witness for C7 at `size = 2 ^ 20 + 4`, `i = 2 ^ 20`. -/
theorem c7_random_buffer_payload_witness :
    (createRandomBufferData (fun _ => 0) (1024 * 1024 + 4)).length =
      (1024 * 1024 + 4) / 4 * 4 ∧
    (createRandomBufferData (fun _ => 0) (1024 * 1024 + 4)).getD (1024 * 1024) 0 =
      (createRandomBufferData (fun _ => 0) (1024 * 1024 + 4)).getD
        (1024 * 1024 % (1024 * 1024)) 0 :=
  ⟨(c7_random_buffer_payload (fun _ => 0) (1024 * 1024 + 4)).1,
   (c7_random_buffer_payload (fun _ => 0) (1024 * 1024 + 4)).2
     (by norm_num) (1024 * 1024) le_rfl (by norm_num)⟩

/-- C8. The byte formatter matches the spec's example scenarios
exactly: `0 ↦ "0 B"`, `1536 ↦ "1.5 KB"`, `1048576 ↦ "1 MB"`,
`1073741824 ↦ "1 GB"` (base-1024 scaling, two decimal digits with trailing
zeros dropped). -/
theorem c8_format_bytes_examples :
    formatBytes 0 = "0 B" ∧ formatBytes 1536 = "1.5 KB" ∧
    formatBytes 1048576 = "1 MB" ∧ formatBytes 1073741824 = "1 GB" := by
  refine ⟨by decide, by decide, by decide, by decide⟩

/-- C9. Ending a test leaves the partial state inspectable:
`stopTest()` clears the run flag and cancels the redraw interval but leaves
the tracked buffers, textures and byte total exactly as they were; no
operation other than `clearMemory()` ever shrinks the tracked sequences;
and both test wrappers end by applying exactly `stopTestState` to the
loop-end backend state. -/
theorem c9_stop_test_preserves_state :
    (∀ s : BenchState, (stopTestState s).buffers = s.buffers ∧
      (stopTestState s).textures = s.textures ∧
      (stopTestState s).allocatedMemory = s.allocatedMemory ∧
      (stopTestState s).isRunning = false ∧ (stopTestState s).renderInterval = false) ∧
    (∀ (o : Op) (s : BenchState), o ≠ Op.clearMemory →
      s.buffers.length ≤ (applyOp o s).buffers.length ∧
      s.textures.length ≤ (applyOp o s).textures.length) ∧
    (∀ (failAt : Option Nat) (fuel : Nat) (s : BenchState), s.isRunning = false →
      (startMemoryTest failAt fuel s).2 =
        stopTestState (runLoop (gradualStep failAt) fuel
          ⟨{ s with isRunning := true }, gradualStartSize, 0⟩).2.1.bench ∧
      (startStressTest failAt fuel s).2 =
        stopTestState (runLoop (stressStep failAt) fuel
          ⟨{ s with isRunning := true }, gradualStartSize, 0⟩).2.1.bench) := by
  refine ⟨fun s => ⟨rfl, rfl, rfl, rfl, rfl⟩, ?_, ?_⟩
  · intro o s ho
    cases o with
    | allocBuffer size now => simp [applyOp, allocateBufferState]
    | allocTexture w h now => simp [applyOp, allocateTextureState]
    | clearMemory => exact absurd rfl ho
    | stopTest => simp [applyOp, stopTestState]
    | startDisplay => simp [applyOp, startTextureDisplayState]
    | stopDisplay => simp [applyOp]
  · intro failAt fuel s hrun
    constructor
    · simp [startMemoryTest, runTest, hrun]
    · simp [startStressTest, runTest, hrun]

/-- Witness for C9 on concrete inputs: a stopped test keeps its resources,
a non-clearing op never shrinks them, and a concrete gradual run ends in
`stopTestState` of the loop result. -/
theorem c9_stop_test_preserves_state_witness :
    ((stopTestState overLimitState).allocatedMemory = overLimitState.allocatedMemory) ∧
    (initState.buffers.length ≤ (applyOp Op.stopTest initState).buffers.length) ∧
    ((startMemoryTest (some 0) 1 initState).2 =
      stopTestState (runLoop (gradualStep (some 0)) 1
        ⟨{ initState with isRunning := true }, gradualStartSize, 0⟩).2.1.bench) :=
  ⟨(c9_stop_test_preserves_state.1 overLimitState).2.2.1,
   (c9_stop_test_preserves_state.2.1 Op.stopTest initState (by decide)).1,
   (c9_stop_test_preserves_state.2.2 (some 0) 1 initState rfl).1⟩

/-! ## Escalation-loop lemmas -/

/-- Shape of one gradual iteration: either the buffer call throws, or the
texture call throws, or both succeed and the iteration ends with a limit
check that decides whether the loop continues. -/
theorem gradualStep_shape (failAt : Option Nat) (st : LoopSt) :
    ((gradualStep failAt st).1 = [Ev.allocB st.allocSize, Ev.throwEv] ∧
      (gradualStep failAt st).2.2 = some ExitKind.threw) ∨
    (∃ n, (gradualStep failAt st).1 = [Ev.allocB st.allocSize, Ev.allocT n, Ev.throwEv] ∧
      (gradualStep failAt st).2.2 = some ExitKind.threw) ∨
    (∃ n d v, (d = [] ∨ d = [Ev.startDisplay]) ∧
      (gradualStep failAt st).1 = [Ev.allocB st.allocSize, Ev.allocT n] ++ d ++ [Ev.check v] ∧
      (gradualStep failAt st).2.2 =
        (if memoryLimit < v then some ExitKind.limit else none)) := by
  unfold gradualStep
  by_cases h1 : callFails failAt st.callIdx
  · simp [h1]
  · by_cases h2 : callFails failAt (st.callIdx + 1)
    · simp [h1, h2]
    · simp only [h1, h2, Bool.false_eq_true, if_false]
      refine Or.inr (Or.inr ⟨_, _, _, ?_, rfl, rfl⟩)
      split <;> simp

/-- One gradual iteration never emits a `stopTest` or error-log event. -/
theorem gradualStep_no_stop (failAt : Option Nat) (st : LoopSt) (e : Ev)
    (he : e ∈ (gradualStep failAt st).1) : isStopEv e = false ∧ e ≠ Ev.logError := by
  rcases gradualStep_shape failAt st with ⟨h, _⟩ | ⟨n, h, _⟩ | ⟨n, d, v, hd, h, _⟩
  · rw [h] at he
    simp only [List.mem_cons, List.not_mem_nil, or_false] at he
    rcases he with rfl | rfl <;> simp [isStopEv]
  · rw [h] at he
    simp only [List.mem_cons, List.not_mem_nil, or_false] at he
    rcases he with rfl | rfl | rfl <;> simp [isStopEv]
  · rw [h] at he
    rcases hd with rfl | rfl <;>
      simp only [List.append_nil, List.cons_append, List.nil_append, List.mem_cons,
        List.not_mem_nil, or_false] at he
    · rcases he with rfl | rfl | rfl <;> simp [isStopEv]
    · rcases he with rfl | rfl | rfl | rfl <;> simp [isStopEv]

/-- If one gradual iteration's trace contains the thrown-exception event,
it is the final event and the iteration reports a `threw` exit. -/
theorem gradualStep_throw (failAt : Option Nat) (st : LoopSt)
    (hmem : Ev.throwEv ∈ (gradualStep failAt st).1) :
    ∃ pre, (gradualStep failAt st).1 = pre ++ [Ev.throwEv] ∧ Ev.throwEv ∉ pre ∧
      (gradualStep failAt st).2.2 = some ExitKind.threw := by
  rcases gradualStep_shape failAt st with ⟨h, hex⟩ | ⟨n, h, hex⟩ | ⟨n, d, v, hd, h, hex⟩
  · exact ⟨[Ev.allocB st.allocSize], by simp [h], by simp, hex⟩
  · exact ⟨[Ev.allocB st.allocSize, Ev.allocT n], by simp [h], by simp, hex⟩
  · rw [h] at hmem
    rcases hd with rfl | rfl <;> simp at hmem

/-- If one gradual iteration's trace contains a check event whose total
exceeds the limit, the check is the final event and the iteration reports a
`limit` exit. -/
theorem gradualStep_check (failAt : Option Nat) (st : LoopSt) (pre post : List Ev) (v : ℚ)
    (h : (gradualStep failAt st).1 = pre ++ Ev.check v :: post) (hv : memoryLimit < v) :
    post = [] ∧ (gradualStep failAt st).2.2 = some ExitKind.limit := by
  rcases gradualStep_shape failAt st with ⟨hs, hex⟩ | ⟨n, hs, hex⟩ | ⟨n, d, v', hd, hs, hex⟩
  · rw [hs] at h
    have : Ev.check v ∈ [Ev.allocB st.allocSize, Ev.throwEv] := by
      rw [h]; simp
    simp at this
  · rw [hs] at h
    have : Ev.check v ∈ [Ev.allocB st.allocSize, Ev.allocT n, Ev.throwEv] := by
      rw [h]; simp
    simp at this
  · rw [hs] at h
    have hnock : ∀ e ∈ [Ev.allocB st.allocSize, Ev.allocT n] ++ d, ¬ isCheckEv e = true := by
      intro e he
      rcases hd with rfl | rfl <;>
        simp only [List.append_nil, List.mem_append, List.mem_cons,
          List.not_mem_nil, or_false] at he
      · rcases he with rfl | rfl <;> simp [isCheckEv]
      · rcases he with (rfl | rfl) | rfl <;> simp [isCheckEv]
    have hdec := append_singleton_decomp (fun e => isCheckEv e = true)
      ([Ev.allocB st.allocSize, Ev.allocT n] ++ d) hnock
      (by simpa using h) (by simp [isCheckEv])
    obtain ⟨hpre, hcv, hpost⟩ := hdec
    have hvv : v' = v := by
      cases hcv
      rfl
    subst hvv
    rw [hex, if_pos hv]
    exact ⟨hpost, rfl⟩

/-- One stress pair always emits exactly one buffer attempt followed by one
texture attempt. -/
theorem stressPair_evs (failAt : Option Nat) (st : LoopSt) :
    ∃ n, (stressPair failAt st).1 = [Ev.allocB stressBufferSize, Ev.allocT n] := by
  unfold stressPair
  exact ⟨_, rfl⟩

/-- Shape of one stress iteration: six allocation attempts, then either the
batched exception or the limit check. -/
theorem stressStep_shape (failAt : Option Nat) (st : LoopSt) :
    ∃ n1 n2 n3,
      ((stressStep failAt st).1 =
          [Ev.allocB stressBufferSize, Ev.allocT n1, Ev.allocB stressBufferSize,
            Ev.allocT n2, Ev.allocB stressBufferSize, Ev.allocT n3] ++ [Ev.throwEv] ∧
        (stressStep failAt st).2.2 = some ExitKind.threw) ∨
      (∃ d v, (d = [] ∨ d = [Ev.startDisplay]) ∧
        (stressStep failAt st).1 =
          [Ev.allocB stressBufferSize, Ev.allocT n1, Ev.allocB stressBufferSize,
            Ev.allocT n2, Ev.allocB stressBufferSize, Ev.allocT n3] ++ d ++ [Ev.check v] ∧
        (stressStep failAt st).2.2 =
          (if memoryLimit < v then some ExitKind.limit else none)) := by
  obtain ⟨n1, h1⟩ := stressPair_evs failAt st
  obtain ⟨n2, h2⟩ := stressPair_evs failAt (stressPair failAt st).2.1
  obtain ⟨n3, h3⟩ := stressPair_evs failAt (stressPair failAt (stressPair failAt st).2.1).2.1
  refine ⟨n1, n2, n3, ?_⟩
  unfold stressStep
  by_cases hf : stressBatchFailed failAt st = true
  · left
    refine ⟨?_, by simp [hf]⟩
    simp [hf, h1, h2, h3]
  · right
    refine ⟨if stressDisp failAt st then [Ev.startDisplay] else [],
      (stressPost failAt st).allocatedMemory, ?_, ?_, ?_⟩
    · split <;> simp
    · simp [hf, h1, h2, h3]
    · simp [hf]

/-- One stress iteration never emits a `stopTest` or error-log event. -/
theorem stressStep_no_stop (failAt : Option Nat) (st : LoopSt) (e : Ev)
    (he : e ∈ (stressStep failAt st).1) : isStopEv e = false ∧ e ≠ Ev.logError := by
  obtain ⟨n1, n2, n3, hsh⟩ := stressStep_shape failAt st
  rcases hsh with ⟨h, _⟩ | ⟨d, v, hd, h, _⟩
  · rw [h] at he
    simp only [List.cons_append, List.nil_append, List.mem_cons,
      List.not_mem_nil, or_false] at he
    rcases he with rfl | rfl | rfl | rfl | rfl | rfl | rfl <;> simp [isStopEv]
  · rw [h] at he
    rcases hd with rfl | rfl <;>
      simp only [List.append_nil, List.cons_append, List.nil_append, List.mem_cons,
        List.not_mem_nil, or_false] at he
    · rcases he with rfl | rfl | rfl | rfl | rfl | rfl | rfl <;> simp [isStopEv]
    · rcases he with rfl | rfl | rfl | rfl | rfl | rfl | rfl | rfl <;> simp [isStopEv]

/-- If one stress iteration's trace contains the thrown-exception event, it
is the final event and the iteration reports a `threw` exit. -/
theorem stressStep_throw (failAt : Option Nat) (st : LoopSt)
    (hmem : Ev.throwEv ∈ (stressStep failAt st).1) :
    ∃ pre, (stressStep failAt st).1 = pre ++ [Ev.throwEv] ∧ Ev.throwEv ∉ pre ∧
      (stressStep failAt st).2.2 = some ExitKind.threw := by
  obtain ⟨n1, n2, n3, hsh⟩ := stressStep_shape failAt st
  rcases hsh with ⟨h, hex⟩ | ⟨d, v, hd, h, hex⟩
  · exact ⟨_, h, by simp, hex⟩
  · rw [h] at hmem
    rcases hd with rfl | rfl <;> simp at hmem

/-- If one stress iteration's trace contains a check event whose total
exceeds the limit, the check is the final event and the iteration reports a
`limit` exit. -/
theorem stressStep_check (failAt : Option Nat) (st : LoopSt) (pre post : List Ev) (v : ℚ)
    (h : (stressStep failAt st).1 = pre ++ Ev.check v :: post) (hv : memoryLimit < v) :
    post = [] ∧ (stressStep failAt st).2.2 = some ExitKind.limit := by
  obtain ⟨n1, n2, n3, hsh⟩ := stressStep_shape failAt st
  rcases hsh with ⟨hs, hex⟩ | ⟨d, v', hd, hs, hex⟩
  · rw [hs] at h
    have hck : Ev.check v ∈
        [Ev.allocB stressBufferSize, Ev.allocT n1, Ev.allocB stressBufferSize,
          Ev.allocT n2, Ev.allocB stressBufferSize, Ev.allocT n3] ++ [Ev.throwEv] := by
      rw [h]; simp
    simp at hck
  · rw [hs] at h
    have hnock : ∀ e ∈ [Ev.allocB stressBufferSize, Ev.allocT n1, Ev.allocB stressBufferSize,
        Ev.allocT n2, Ev.allocB stressBufferSize, Ev.allocT n3] ++ d,
        ¬ isCheckEv e = true := by
      intro e he
      rcases hd with rfl | rfl <;>
        simp only [List.append_nil, List.mem_append, List.mem_cons,
          List.not_mem_nil, or_false] at he
      · rcases he with rfl | rfl | rfl | rfl | rfl | rfl <;> simp [isCheckEv]
      · rcases he with (rfl | rfl | rfl | rfl | rfl | rfl) | rfl <;> simp [isCheckEv]
    have hdec := append_singleton_decomp (fun e => isCheckEv e = true)
      ([Ev.allocB stressBufferSize, Ev.allocT n1, Ev.allocB stressBufferSize,
        Ev.allocT n2, Ev.allocB stressBufferSize, Ev.allocT n3] ++ d) hnock
      (by simpa using h) (by simp [isCheckEv])
    obtain ⟨hpre, hcv, hpost⟩ := hdec
    have hvv : v' = v := by
      cases hcv
      rfl
    subst hvv
    rw [hex, if_pos hv]
    exact ⟨hpost, rfl⟩

/-! ## Generic loop lemmas -/

/-- Unfolding: a running iteration that reports an exit ends the loop. -/
theorem runLoop_succ_exit (step : LoopSt → List Ev × LoopSt × Option ExitKind)
    (f : Nat) (st : LoopSt) (hr : st.bench.isRunning = true) (ex : ExitKind)
    (hex : (step st).2.2 = some ex) :
    runLoop step (f + 1) st = ((step st).1, (step st).2.1, ex) := by
  rcases hs : step st with ⟨evs, st1, exo⟩
  rw [hs] at hex
  simp only at hex
  subst hex
  simp [runLoop, hr, hs]

/-- Unfolding: a running iteration that reports no exit recurses on the
remaining fuel. -/
theorem runLoop_succ_cont (step : LoopSt → List Ev × LoopSt × Option ExitKind)
    (f : Nat) (st : LoopSt) (hr : st.bench.isRunning = true)
    (hex : (step st).2.2 = none) :
    runLoop step (f + 1) st =
      ((step st).1 ++ (runLoop step f (step st).2.1).1,
        (runLoop step f (step st).2.1).2.1, (runLoop step f (step st).2.1).2.2) := by
  rcases hs : step st with ⟨evs, st1, exo⟩
  rw [hs] at hex
  simp only at hex
  subst hex
  simp [runLoop, hr, hs]

/-- If no iteration emits stop or error-log events, neither does the
loop. -/
theorem runLoop_no_stop {step : LoopSt → List Ev × LoopSt × Option ExitKind}
    (hstep : ∀ st e, e ∈ (step st).1 → isStopEv e = false ∧ e ≠ Ev.logError) :
    ∀ fuel st e, e ∈ (runLoop step fuel st).1 →
      isStopEv e = false ∧ e ≠ Ev.logError := by
  intro fuel
  induction fuel with
  | zero => intro st e he; simp [runLoop] at he
  | succ f ih =>
    intro st e he
    by_cases hr : st.bench.isRunning = true
    · rcases hexo : (step st).2.2 with _ | ex
      · rw [runLoop_succ_cont step f st hr hexo] at he
        simp only [List.mem_append] at he
        rcases he with he | he
        · exact hstep st e he
        · exact ih _ e he
      · rw [runLoop_succ_exit step f st hr ex hexo] at he
        exact hstep st e he
    · have hr' : st.bench.isRunning = false := by
        simpa using hr
      simp [runLoop, hr'] at he

/-- If each iteration puts a thrown exception last and reports `threw`,
then a throw in the loop trace is the final event of the whole trace and
the loop exits with `threw`. -/
theorem runLoop_throw {step : LoopSt → List Ev × LoopSt × Option ExitKind}
    (hstep : ∀ st, Ev.throwEv ∈ (step st).1 →
      ∃ pre, (step st).1 = pre ++ [Ev.throwEv] ∧ Ev.throwEv ∉ pre ∧
        (step st).2.2 = some ExitKind.threw) :
    ∀ fuel st, Ev.throwEv ∈ (runLoop step fuel st).1 →
      ∃ pre, (runLoop step fuel st).1 = pre ++ [Ev.throwEv] ∧ Ev.throwEv ∉ pre ∧
        (runLoop step fuel st).2.2 = ExitKind.threw := by
  intro fuel
  induction fuel with
  | zero => intro st he; simp [runLoop] at he
  | succ f ih =>
    intro st he
    by_cases hr : st.bench.isRunning = true
    · rcases hexo : (step st).2.2 with _ | ex
      · rw [runLoop_succ_cont step f st hr hexo] at he ⊢
        simp only [List.mem_append] at he
        have hnotevs : Ev.throwEv ∉ (step st).1 := by
          intro hmem
          obtain ⟨pre, h1, h2, h3⟩ := hstep st hmem
          rw [hexo] at h3
          exact Option.noConfusion h3
        rcases he with he | he
        · exact absurd he hnotevs
        · obtain ⟨pre, h1, h2, h3⟩ := ih _ he
          refine ⟨(step st).1 ++ pre, ?_, ?_, h3⟩
          · rw [h1]
            simp
          · simp only [List.mem_append]
            rintro (hmem | hmem)
            · exact hnotevs hmem
            · exact h2 hmem
      · rw [runLoop_succ_exit step f st hr ex hexo] at he ⊢
        obtain ⟨pre, h1, h2, h3⟩ := hstep st he
        rw [hexo] at h3
        have hexeq : ex = ExitKind.threw := by
          exact (Option.some.injEq _ _ ▸ h3 : _)
        exact ⟨pre, h1, h2, by simp [hexeq]⟩
    · have hr' : st.bench.isRunning = false := by
        simpa using hr
      simp [runLoop, hr'] at he

/-- If each iteration makes an over-limit check final with a `limit` exit,
then in the loop trace every over-limit check is the final event, with exit
`limit`. -/
theorem runLoop_check {step : LoopSt → List Ev × LoopSt × Option ExitKind}
    (hstep : ∀ st pre v post, (step st).1 = pre ++ Ev.check v :: post →
      memoryLimit < v → post = [] ∧ (step st).2.2 = some ExitKind.limit) :
    ∀ fuel st pre v post, (runLoop step fuel st).1 = pre ++ Ev.check v :: post →
      memoryLimit < v → post = [] ∧ (runLoop step fuel st).2.2 = ExitKind.limit := by
  intro fuel
  induction fuel with
  | zero =>
    intro st pre v post h hv
    simp only [runLoop] at h
    exact absurd h.symm (by simp)
  | succ f ih =>
    intro st pre v post h hv
    by_cases hr : st.bench.isRunning = true
    · rcases hexo : (step st).2.2 with _ | ex
      · rw [runLoop_succ_cont step f st hr hexo] at h ⊢
        rcases append_eq_append_cons (step st).1 h with ⟨mid, hm1, hm2⟩ | ⟨pre2, hp1, hp2⟩
        · obtain ⟨_, h2⟩ := hstep st pre v mid hm1 hv
          rw [hexo] at h2
          exact Option.noConfusion h2
        · obtain ⟨h1, h2⟩ := ih _ pre2 v post hp2 hv
          exact ⟨h1, h2⟩
      · rw [runLoop_succ_exit step f st hr ex hexo] at h ⊢
        obtain ⟨h1, h2⟩ := hstep st pre v post h hv
        rw [hexo] at h2
        have hexeq : ex = ExitKind.limit := by
          exact (Option.some.injEq _ _ ▸ h2 : _)
        exact ⟨h1, by simp [hexeq]⟩
    · have hr' : st.bench.isRunning = false := by
        simpa using hr
      rw [show runLoop step (f + 1) st = ([], st, ExitKind.stopped) from by
        simp [runLoop, hr']] at h
      exact absurd h.symm (by simp)

/-! ## Wrapper lemmas -/

/-- List-level decomposition of a wrapped trace containing the caught
exception: the trace is a throw-free, stop-free prefix followed by exactly
`[throwEv, logError, stopTestEv M NB NT]`. -/
theorem wrapped_throw_decomp (levs : List Ev) (ex : ExitKind) (M : ℚ) (NB NT : Nat)
    (hthrowprop : Ev.throwEv ∈ levs →
      ∃ pre, levs = pre ++ [Ev.throwEv] ∧ Ev.throwEv ∉ pre ∧ ex = ExitKind.threw)
    (hnostopprop : ∀ e ∈ levs, isStopEv e = false ∧ e ≠ Ev.logError)
    (hmem : Ev.throwEv ∈
      (levs ++ (if ex = ExitKind.threw then [Ev.logError] else [])) ++
        [Ev.stopTestEv M NB NT]) :
    ∃ pre,
      (levs ++ (if ex = ExitKind.threw then [Ev.logError] else [])) ++
          [Ev.stopTestEv M NB NT] =
        pre ++ [Ev.throwEv, Ev.logError, Ev.stopTestEv M NB NT] ∧
      Ev.throwEv ∉ pre ∧ (∀ e ∈ pre, isStopEv e = false ∧ e ≠ Ev.logError) := by
  have hloopmem : Ev.throwEv ∈ levs := by
    simp only [List.mem_append, List.mem_singleton] at hmem
    rcases hmem with (hm | hm) | hm
    · exact hm
    · split at hm <;> simp_all
    · simp at hm
  obtain ⟨pre, h1, h2, h3⟩ := hthrowprop hloopmem
  refine ⟨pre, ?_, h2, ?_⟩
  · rw [h1, h3]
    simp
  · intro e he
    exact hnostopprop e (by rw [h1]; simp [he])

/-- List-level decomposition of a wrapped trace at an over-limit check:
everything after the check is the single final `stopTest` event. -/
theorem wrapped_check_decomp (levs : List Ev) (ex : ExitKind) (M : ℚ) (NB NT : Nat)
    (hcheckprop : ∀ pre v post, levs = pre ++ Ev.check v :: post →
      memoryLimit < v → post = [] ∧ ex = ExitKind.limit)
    (pre post : List Ev) (v : ℚ)
    (h : (levs ++ (if ex = ExitKind.threw then [Ev.logError] else [])) ++
        [Ev.stopTestEv M NB NT] = pre ++ Ev.check v :: post)
    (hv : memoryLimit < v) :
    post = [Ev.stopTestEv M NB NT] := by
  rcases append_eq_append_cons _ h with ⟨mid, hm1, hm2⟩ | ⟨pre2, hp1, hp2⟩
  · rcases append_eq_append_cons _ hm1 with ⟨mid2, hn1, hn2⟩ | ⟨pre3, hq1, hq2⟩
    · obtain ⟨hz, hex⟩ := hcheckprop pre v mid2 hn1 hv
      have hlog : (if ex = ExitKind.threw then [Ev.logError] else []) = ([] : List Ev) := by
        rw [hex]
        simp
      rw [hlog] at hn2
      rw [hm2, hn2, hz]
      simp
    · by_cases hex : ex = ExitKind.threw
      · rw [if_pos hex] at hq2
        cases pre3 with
        | nil => simp at hq2
        | cons p pt => simp at hq2
      · rw [if_neg hex] at hq2
        simp at hq2
  · have hck : Ev.check v ∈ [Ev.stopTestEv M NB NT] := by
      rw [hp2]
      simp
    simp at hck

/-- If the loop of a wrapped test run throws, the full trace decomposes as
a throw-free prefix, the caught exception, one logged error, and exactly
one `stopTest()` call recording the final totals; the final state is
stopped. -/
theorem runTest_throw {step : LoopSt → List Ev × LoopSt × Option ExitKind}
    (hthrow : ∀ st, Ev.throwEv ∈ (step st).1 →
      ∃ pre, (step st).1 = pre ++ [Ev.throwEv] ∧ Ev.throwEv ∉ pre ∧
        (step st).2.2 = some ExitKind.threw)
    (hnostop : ∀ st e, e ∈ (step st).1 → isStopEv e = false ∧ e ≠ Ev.logError)
    (fuel : Nat) (s : BenchState) (hmem : Ev.throwEv ∈ (runTest step fuel s).1) :
    ∃ pre,
      (runTest step fuel s).1 =
        pre ++ [Ev.throwEv, Ev.logError,
          Ev.stopTestEv (runTest step fuel s).2.allocatedMemory
            (runTest step fuel s).2.buffers.length
            (runTest step fuel s).2.textures.length] ∧
      Ev.throwEv ∉ pre ∧
      (∀ e ∈ pre, isStopEv e = false ∧ e ≠ Ev.logError) ∧
      (runTest step fuel s).2.isRunning = false := by
  by_cases hrun : s.isRunning = true
  · rw [show runTest step fuel s = ([], s) from by simp [runTest, hrun]] at hmem
    simp at hmem
  · have hrun' : s.isRunning = false := by simpa using hrun
    have hwrap : runTest step fuel s =
        (((runLoop step fuel ⟨{ s with isRunning := true }, gradualStartSize, 0⟩).1 ++
            (if (runLoop step fuel ⟨{ s with isRunning := true }, gradualStartSize, 0⟩).2.2 =
                ExitKind.threw then [Ev.logError] else [])) ++
          [Ev.stopTestEv
            (runLoop step fuel
              ⟨{ s with isRunning := true }, gradualStartSize, 0⟩).2.1.bench.allocatedMemory
            (runLoop step fuel
              ⟨{ s with isRunning := true }, gradualStartSize, 0⟩).2.1.bench.buffers.length
            (runLoop step fuel
              ⟨{ s with isRunning := true }, gradualStartSize, 0⟩).2.1.bench.textures.length],
         stopTestState
           (runLoop step fuel ⟨{ s with isRunning := true }, gradualStartSize, 0⟩).2.1.bench) := by
      unfold runTest
      rw [if_neg (by simp [hrun'])]
    rw [hwrap] at hmem ⊢
    obtain ⟨pre, ha, hb, hc⟩ := wrapped_throw_decomp _ _ _ _ _
      (fun hm => ⟨(runLoop_throw hthrow fuel _ hm).choose,
        (runLoop_throw hthrow fuel _ hm).choose_spec.1,
        (runLoop_throw hthrow fuel _ hm).choose_spec.2.1,
        (runLoop_throw hthrow fuel _ hm).choose_spec.2.2⟩)
      (runLoop_no_stop hnostop fuel _) hmem
    exact ⟨pre, ha, hb, hc, rfl⟩

/-- If a wrapped test run's trace contains a check whose total exceeds the
limit, the only events after it are the single final `stopTest()` call:
the loop never initiates another allocation. -/
theorem runTest_check {step : LoopSt → List Ev × LoopSt × Option ExitKind}
    (hcheck : ∀ st pre v post, (step st).1 = pre ++ Ev.check v :: post →
      memoryLimit < v → post = [] ∧ (step st).2.2 = some ExitKind.limit)
    (fuel : Nat) (s : BenchState) (pre post : List Ev) (v : ℚ)
    (h : (runTest step fuel s).1 = pre ++ Ev.check v :: post) (hv : memoryLimit < v) :
    post = [Ev.stopTestEv (runTest step fuel s).2.allocatedMemory
      (runTest step fuel s).2.buffers.length (runTest step fuel s).2.textures.length] := by
  by_cases hrun : s.isRunning = true
  · rw [show runTest step fuel s = ([], s) from by simp [runTest, hrun]] at h
    exact absurd h.symm (by simp)
  · have hrun' : s.isRunning = false := by simpa using hrun
    have hwrap : runTest step fuel s =
        (((runLoop step fuel ⟨{ s with isRunning := true }, gradualStartSize, 0⟩).1 ++
            (if (runLoop step fuel ⟨{ s with isRunning := true }, gradualStartSize, 0⟩).2.2 =
                ExitKind.threw then [Ev.logError] else [])) ++
          [Ev.stopTestEv
            (runLoop step fuel
              ⟨{ s with isRunning := true }, gradualStartSize, 0⟩).2.1.bench.allocatedMemory
            (runLoop step fuel
              ⟨{ s with isRunning := true }, gradualStartSize, 0⟩).2.1.bench.buffers.length
            (runLoop step fuel
              ⟨{ s with isRunning := true }, gradualStartSize, 0⟩).2.1.bench.textures.length],
         stopTestState
           (runLoop step fuel ⟨{ s with isRunning := true }, gradualStartSize, 0⟩).2.1.bench) := by
      unfold runTest
      rw [if_neg (by simp [hrun'])]
    rw [hwrap] at h ⊢
    exact wrapped_check_decomp _ _ _ _ _
      (fun pre' v' post' h' hv' => runLoop_check hcheck fuel _ pre' v' post' h' hv')
      pre post v h hv

/-- C4. In both test loops, an allocation exception is caught exactly
once at the escalation-loop boundary: the trace up to the throw contains no
`stopTest` call and no logged error, the throw is followed by exactly one
logged error and exactly one `stopTest()` call (which records the final
byte total and the final buffer/texture counts), no allocation attempt
follows the throw, and the wrapper returns normally with the run flag
cleared (the exception never escapes the controller). -/
theorem c4_failure_stops_test :
    (∀ (failAt : Option Nat) (fuel : Nat) (s : BenchState),
      Ev.throwEv ∈ (startMemoryTest failAt fuel s).1 →
      ∃ pre,
        (startMemoryTest failAt fuel s).1 = pre ++ [Ev.throwEv, Ev.logError,
          Ev.stopTestEv (startMemoryTest failAt fuel s).2.allocatedMemory
            (startMemoryTest failAt fuel s).2.buffers.length
            (startMemoryTest failAt fuel s).2.textures.length] ∧
        Ev.throwEv ∉ pre ∧ (∀ e ∈ pre, isStopEv e = false ∧ e ≠ Ev.logError) ∧
        (startMemoryTest failAt fuel s).2.isRunning = false) ∧
    (∀ (failAt : Option Nat) (fuel : Nat) (s : BenchState),
      Ev.throwEv ∈ (startStressTest failAt fuel s).1 →
      ∃ pre,
        (startStressTest failAt fuel s).1 = pre ++ [Ev.throwEv, Ev.logError,
          Ev.stopTestEv (startStressTest failAt fuel s).2.allocatedMemory
            (startStressTest failAt fuel s).2.buffers.length
            (startStressTest failAt fuel s).2.textures.length] ∧
        Ev.throwEv ∉ pre ∧ (∀ e ∈ pre, isStopEv e = false ∧ e ≠ Ev.logError) ∧
        (startStressTest failAt fuel s).2.isRunning = false) :=
  ⟨fun failAt fuel s hmem =>
    runTest_throw (gradualStep_throw failAt) (gradualStep_no_stop failAt) fuel s hmem,
   fun failAt fuel s hmem =>
    runTest_throw (stressStep_throw failAt) (stressStep_no_stop failAt) fuel s hmem⟩

/-- Witness for C4: concrete failing runs of both loops (the very first
allocation call throws). -/
theorem c4_failure_stops_test_witness :
    (Ev.throwEv ∈ (startMemoryTest (some 0) 1 initState).1 ∧
      ∃ pre,
        (startMemoryTest (some 0) 1 initState).1 = pre ++ [Ev.throwEv, Ev.logError,
          Ev.stopTestEv (startMemoryTest (some 0) 1 initState).2.allocatedMemory
            (startMemoryTest (some 0) 1 initState).2.buffers.length
            (startMemoryTest (some 0) 1 initState).2.textures.length] ∧
        Ev.throwEv ∉ pre ∧ (∀ e ∈ pre, isStopEv e = false ∧ e ≠ Ev.logError) ∧
        (startMemoryTest (some 0) 1 initState).2.isRunning = false) ∧
    (Ev.throwEv ∈ (startStressTest (some 0) 1 initState).1 ∧
      ∃ pre,
        (startStressTest (some 0) 1 initState).1 = pre ++ [Ev.throwEv, Ev.logError,
          Ev.stopTestEv (startStressTest (some 0) 1 initState).2.allocatedMemory
            (startStressTest (some 0) 1 initState).2.buffers.length
            (startStressTest (some 0) 1 initState).2.textures.length] ∧
        Ev.throwEv ∉ pre ∧ (∀ e ∈ pre, isStopEv e = false ∧ e ≠ Ev.logError) ∧
        (startStressTest (some 0) 1 initState).2.isRunning = false) :=
  ⟨⟨by decide, c4_failure_stops_test.1 (some 0) 1 initState (by decide)⟩,
   ⟨by decide, c4_failure_stops_test.2 (some 0) 1 initState (by decide)⟩⟩

/-- C6. In both test loops, the first post-iteration check that
observes a total above 16,000 MiB ends the run: the only event after such
a check is the single final `stopTest()` call — in particular no further
allocation is ever initiated after an over-limit observation, so every
allocation is initiated only while the most recently checked total was at
or below the threshold. -/
theorem c6_limit_stops_test :
    (∀ (failAt : Option Nat) (fuel : Nat) (s : BenchState) (pre post : List Ev) (v : ℚ),
      (startMemoryTest failAt fuel s).1 = pre ++ Ev.check v :: post → memoryLimit < v →
      post = [Ev.stopTestEv (startMemoryTest failAt fuel s).2.allocatedMemory
        (startMemoryTest failAt fuel s).2.buffers.length
        (startMemoryTest failAt fuel s).2.textures.length]) ∧
    (∀ (failAt : Option Nat) (fuel : Nat) (s : BenchState) (pre post : List Ev) (v : ℚ),
      (startStressTest failAt fuel s).1 = pre ++ Ev.check v :: post → memoryLimit < v →
      post = [Ev.stopTestEv (startStressTest failAt fuel s).2.allocatedMemory
        (startStressTest failAt fuel s).2.buffers.length
        (startStressTest failAt fuel s).2.textures.length]) :=
  ⟨fun failAt fuel s pre post v h hv =>
    runTest_check
      (fun st pre' v' post' h' hv' => gradualStep_check failAt st pre' post' v' h' hv')
      fuel s pre post v h hv,
   fun failAt fuel s pre post v h hv =>
    runTest_check
      (fun st pre' v' post' h' hv' => stressStep_check failAt st pre' post' v' h' hv')
      fuel s pre post v h hv⟩

/-- Witness for C6: concrete runs of both loops from a state already above
the threshold; the first check ends the test. -/
theorem c6_limit_stops_test_witness :
    ((startMemoryTest none 1 overLimitState).1 =
        [Ev.allocB 1048576, Ev.allocT 512, Ev.startDisplay] ++
          Ev.check (16000 * 1024 * 1024 + 1 + 1048576 + 1048576) ::
            [Ev.stopTestEv (16000 * 1024 * 1024 + 1 + 1048576 + 1048576) 1 1] ∧
      [Ev.stopTestEv (16000 * 1024 * 1024 + 1 + 1048576 + 1048576 : ℚ) 1 1] =
        [Ev.stopTestEv (startMemoryTest none 1 overLimitState).2.allocatedMemory
          (startMemoryTest none 1 overLimitState).2.buffers.length
          (startMemoryTest none 1 overLimitState).2.textures.length]) ∧
    ((startStressTest none 1 overLimitState).1 =
        [Ev.allocB 16777216, Ev.allocT 2048, Ev.allocB 16777216, Ev.allocT 2048,
          Ev.allocB 16777216, Ev.allocT 2048, Ev.startDisplay] ++
          Ev.check (16000 * 1024 * 1024 + 1 + 100663296) ::
            [Ev.stopTestEv (16000 * 1024 * 1024 + 1 + 100663296) 3 3] ∧
      [Ev.stopTestEv (16000 * 1024 * 1024 + 1 + 100663296 : ℚ) 3 3] =
        [Ev.stopTestEv (startStressTest none 1 overLimitState).2.allocatedMemory
          (startStressTest none 1 overLimitState).2.buffers.length
          (startStressTest none 1 overLimitState).2.textures.length]) :=
  ⟨⟨by decide,
    c6_limit_stops_test.1 none 1 overLimitState
      [Ev.allocB 1048576, Ev.allocT 512, Ev.startDisplay]
      [Ev.stopTestEv (16000 * 1024 * 1024 + 1 + 1048576 + 1048576) 1 1]
      (16000 * 1024 * 1024 + 1 + 1048576 + 1048576) (by decide) (by decide)⟩,
   ⟨by decide,
    c6_limit_stops_test.2 none 1 overLimitState
      [Ev.allocB 16777216, Ev.allocT 2048, Ev.allocB 16777216, Ev.allocT 2048,
        Ev.allocB 16777216, Ev.allocT 2048, Ev.startDisplay]
      [Ev.stopTestEv (16000 * 1024 * 1024 + 1 + 100663296) 3 3]
      (16000 * 1024 * 1024 + 1 + 100663296) (by decide) (by decide)⟩⟩

/-! ## Gradual-mode escalation lemmas -/

/-- One gradual iteration, entered with `n` buffers, `n` textures and the
current allocation size `gradualSizeAfter n`, requests exactly one buffer
of that size and (unless the buffer call threw) one texture whose side is
the step function of `n`; on continuation the counts are `n + 1` and the
allocation size is `gradualSizeAfter (n + 1)`. -/
theorem gradualStep_sizes (failAt : Option Nat) (st : LoopSt) (n : Nat)
    (hb : st.bench.buffers.length = n) (ht : st.bench.textures.length = n)
    (hs : st.allocSize = gradualSizeAfter n) :
    allocBSizes (gradualStep failAt st).1 = [gradualSizeAfter n] ∧
    (allocTSides (gradualStep failAt st).1 = [] ∨
      allocTSides (gradualStep failAt st).1 = [gradualTextureSide n]) ∧
    ((gradualStep failAt st).2.2 = none →
      allocTSides (gradualStep failAt st).1 = [gradualTextureSide n] ∧
      (gradualStep failAt st).2.1.bench.buffers.length = n + 1 ∧
      (gradualStep failAt st).2.1.bench.textures.length = n + 1 ∧
      (gradualStep failAt st).2.1.allocSize = gradualSizeAfter (n + 1)) := by
  unfold gradualStep
  by_cases h1 : callFails failAt st.callIdx
  · simp [h1, allocBSizes, allocTSides, hs]
  · by_cases h2 : callFails failAt (st.callIdx + 1)
    · simp [h1, h2, allocBSizes, allocTSides, hs, allocateBufferState, ht]
    · simp only [h1, h2, Bool.false_eq_true, if_false]
      refine ⟨?_, ?_, ?_⟩
      · split <;> simp [allocBSizes, hs]
      · right
        split <;> simp [allocTSides, allocateBufferState, ht]
      · intro _
        refine ⟨by split <;> simp [allocTSides, allocateBufferState, ht], ?_, ?_, ?_⟩

        · split <;>
            simp [allocateBufferState, allocateTextureState, startTextureDisplayState, hb]
        · split <;>
            simp [allocateBufferState, allocateTextureState, startTextureDisplayState, ht]
        · have hlen : (if (allocateTextureState
              (gradualTextureSide (allocateBufferState st.allocSize st.callIdx
                st.bench).textures.length)
              (gradualTextureSide (allocateBufferState st.allocSize st.callIdx
                st.bench).textures.length)
              (st.callIdx + 1)
              (allocateBufferState st.allocSize st.callIdx st.bench)).textures.length = 1 then
                startTextureDisplayState (allocateTextureState
                  (gradualTextureSide (allocateBufferState st.allocSize st.callIdx
                    st.bench).textures.length)
                  (gradualTextureSide (allocateBufferState st.allocSize st.callIdx
                    st.bench).textures.length)
                  (st.callIdx + 1)
                  (allocateBufferState st.allocSize st.callIdx st.bench))
              else (allocateTextureState
                (gradualTextureSide (allocateBufferState st.allocSize st.callIdx
                  st.bench).textures.length)
                (gradualTextureSide (allocateBufferState st.allocSize st.callIdx
                  st.bench).textures.length)
                (st.callIdx + 1)
                (allocateBufferState st.allocSize st.callIdx
                  st.bench))).buffers.length = n + 1 := by
            split <;>
              simp [allocateBufferState, allocateTextureState, startTextureDisplayState, hb]
          simp only [hlen]
          rw [show gradualSizeAfter (n + 1) =
              (if (n + 1) % 10 = 0 then min (gradualSizeAfter n * growFactor) bufferSizeCap
                else gradualSizeAfter n) from rfl, hs]

/-- Along any gradual loop run whose entry state has `n` buffers, `n`
textures and allocation size `gradualSizeAfter n`, the `k`-th buffer
request has size `gradualSizeAfter (n + k)` and the `k`-th texture request
has side `gradualTextureSide (n + k)`. -/
theorem gradualLoop_sizes (failAt : Option Nat) :
    ∀ (fuel : Nat) (st : LoopSt) (n : Nat),
      st.bench.buffers.length = n → st.bench.textures.length = n →
      st.allocSize = gradualSizeAfter n →
      (∀ k q, (allocBSizes (runLoop (gradualStep failAt) fuel st).1).get? k = some q →
        q = gradualSizeAfter (n + k)) ∧
      (∀ k m, (allocTSides (runLoop (gradualStep failAt) fuel st).1).get? k = some m →
        m = gradualTextureSide (n + k)) := by
  intro fuel
  induction fuel with
  | zero =>
    intro st n hb ht hs
    constructor <;> intro k x hk <;> simp [runLoop, allocBSizes, allocTSides] at hk
  | succ f ih =>
    intro st n hb ht hs
    by_cases hr : st.bench.isRunning = true
    · obtain ⟨hB, hT, hcont⟩ := gradualStep_sizes failAt st n hb ht hs
      rcases hexo : (gradualStep failAt st).2.2 with _ | ex
      · obtain ⟨hT1, hb1, ht1, hs1⟩ := hcont hexo
        obtain ⟨ihB, ihT⟩ := ih (gradualStep failAt st).2.1 (n + 1) hb1 ht1 hs1
        rw [runLoop_succ_cont (gradualStep failAt) f st hr hexo]
        constructor
        · intro k q hk
          rw [show allocBSizes ((gradualStep failAt st).1 ++
              (runLoop (gradualStep failAt) f (gradualStep failAt st).2.1).1) =
              allocBSizes (gradualStep failAt st).1 ++
                allocBSizes (runLoop (gradualStep failAt) f (gradualStep failAt st).2.1).1
              from by simp [allocBSizes], hB] at hk
          cases k with
          | zero =>
            simp at hk
            simp [← hk]
          | succ k' =>
            simp only [List.cons_append, List.nil_append, List.get?_cons_succ] at hk
            rw [show n + (k' + 1) = (n + 1) + k' from by omega]
            exact ihB k' q hk
        · intro k m hk
          rw [show allocTSides ((gradualStep failAt st).1 ++
              (runLoop (gradualStep failAt) f (gradualStep failAt st).2.1).1) =
              allocTSides (gradualStep failAt st).1 ++
                allocTSides (runLoop (gradualStep failAt) f (gradualStep failAt st).2.1).1
              from by simp [allocTSides], hT1] at hk
          cases k with
          | zero =>
            simp at hk
            simp [← hk]
          | succ k' =>
            simp only [List.cons_append, List.nil_append, List.get?_cons_succ] at hk
            rw [show n + (k' + 1) = (n + 1) + k' from by omega]
            exact ihT k' m hk
      · rw [runLoop_succ_exit (gradualStep failAt) f st hr ex hexo]
        constructor
        · intro k q hk
          rw [hB] at hk
          cases k with
          | zero =>
            simp at hk
            simp [← hk]
          | succ k' => simp at hk
        · intro k m hk
          rcases hT with hT | hT <;> rw [hT] at hk
          · simp at hk
          · cases k with
            | zero =>
              simp at hk
              simp [← hk]
            | succ k' => simp at hk
    · have hr' : st.bench.isRunning = false := by simpa using hr
      rw [show runLoop (gradualStep failAt) (f + 1) st = ([], st, ExitKind.stopped) from by
        simp [runLoop, hr']]
      constructor <;> intro k x hk <;> simp [allocBSizes, allocTSides] at hk

/-- C2. In gradual mode starting from an empty backend the `k`-th
requested buffer size is `gradualSizeAfter k`: it begins at 1 MiB, stays
there for the first 10 buffers, and after every 10th successful buffer
allocation is multiplied by `1.1` and capped at 256 MiB — in particular the
11th request equals `min (1MiB * 1.1) 256MiB` and every request stays
within the cap; and the `k`-th texture request is square with side the
step function of the texture count `k` before that allocation (512 / 1024 /
2048 / 4096), whose transitions occur exactly at counts 5, 15 and 25. -/
theorem c2_gradual_escalation :
    (∀ (failAt : Option Nat) (fuel k : Nat) (q : ℚ),
      (allocBSizes (startMemoryTest failAt fuel initState).1).get? k = some q →
      q = gradualSizeAfter k) ∧
    (∀ (failAt : Option Nat) (fuel k m : Nat),
      (allocTSides (startMemoryTest failAt fuel initState).1).get? k = some m →
      m = gradualTextureSide k) ∧
    gradualSizeAfter 0 = 1024 * 1024 ∧
    (∀ j, j < 10 → gradualSizeAfter j = gradualStartSize) ∧
    gradualSizeAfter 10 = min (gradualStartSize * growFactor) bufferSizeCap ∧
    (∀ n, gradualSizeAfter n ≤ bufferSizeCap) ∧
    (∀ n, gradualTextureSide n ≠ gradualTextureSide (n + 1) ↔
      (n = 5 ∨ n = 15 ∨ n = 25)) := by
  have hfilter : ∀ (failAt : Option Nat) (fuel : Nat),
      allocBSizes (startMemoryTest failAt fuel initState).1 =
        allocBSizes (runLoop (gradualStep failAt) fuel
          ⟨{ initState with isRunning := true }, gradualStartSize, 0⟩).1 ∧
      allocTSides (startMemoryTest failAt fuel initState).1 =
        allocTSides (runLoop (gradualStep failAt) fuel
          ⟨{ initState with isRunning := true }, gradualStartSize, 0⟩).1 := by
    intro failAt fuel
    have hwrap : (startMemoryTest failAt fuel initState).1 =
        ((runLoop (gradualStep failAt) fuel
            ⟨{ initState with isRunning := true }, gradualStartSize, 0⟩).1 ++
          (if (runLoop (gradualStep failAt) fuel
              ⟨{ initState with isRunning := true }, gradualStartSize, 0⟩).2.2 =
              ExitKind.threw then [Ev.logError] else [])) ++
          [Ev.stopTestEv
            (runLoop (gradualStep failAt) fuel
              ⟨{ initState with isRunning := true },
                gradualStartSize, 0⟩).2.1.bench.allocatedMemory
            (runLoop (gradualStep failAt) fuel
              ⟨{ initState with isRunning := true },
                gradualStartSize, 0⟩).2.1.bench.buffers.length
            (runLoop (gradualStep failAt) fuel
              ⟨{ initState with isRunning := true },
                gradualStartSize, 0⟩).2.1.bench.textures.length] := by
      show (runTest (gradualStep failAt) fuel initState).1 = _
      unfold runTest
      rw [if_neg (by simp [initState])]
    rw [hwrap]
    constructor <;> simp only [allocBSizes, allocTSides, List.filterMap_append] <;>
      split <;> simp
  have hsizes : ∀ (failAt : Option Nat) (fuel : Nat),
      (∀ k q, (allocBSizes (runLoop (gradualStep failAt) fuel
          ⟨{ initState with isRunning := true }, gradualStartSize, 0⟩).1).get? k = some q →
        q = gradualSizeAfter k) ∧
      (∀ k m, (allocTSides (runLoop (gradualStep failAt) fuel
          ⟨{ initState with isRunning := true }, gradualStartSize, 0⟩).1).get? k = some m →
        m = gradualTextureSide k) := by
    intro failAt fuel
    obtain ⟨hB, hT⟩ := gradualLoop_sizes failAt fuel
      ⟨{ initState with isRunning := true }, gradualStartSize, 0⟩ 0 rfl rfl rfl
    exact ⟨fun k q hk => by simpa using hB k q hk, fun k m hk => by simpa using hT k m hk⟩
  refine ⟨?_, ?_, rfl, ?_, by decide, ?_, ?_⟩
  · intro failAt fuel k q hk
    rw [(hfilter failAt fuel).1] at hk
    exact (hsizes failAt fuel).1 k q hk
  · intro failAt fuel k m hk
    rw [(hfilter failAt fuel).2] at hk
    exact (hsizes failAt fuel).2 k m hk
  · intro j hj
    interval_cases j <;> decide
  · intro n
    induction n with
    | zero => decide
    | succ n ihn =>
      rw [show gradualSizeAfter (n + 1) =
          (if (n + 1) % 10 = 0 then min (gradualSizeAfter n * growFactor) bufferSizeCap
            else gradualSizeAfter n) from rfl]
      split
      · exact min_le_right _ _
      · exact ihn
  · intro n
    unfold gradualTextureSide
    split_ifs <;> simp <;> omega

/-- Witness for C2: in the 11-iteration failure-free gradual run from the
fresh state, the 11th buffer request (index 10) is
`min (1MiB * 1.1) 256MiB` and the 7th texture request (index 6, the first
past count 5) has side 1024; side 5 to 6 is a transition point. -/
theorem c2_gradual_escalation_witness :
    ((allocBSizes (startMemoryTest none 11 initState).1).get? 10 =
        some (min (gradualStartSize * growFactor) bufferSizeCap) ∧
      min (gradualStartSize * growFactor) bufferSizeCap = gradualSizeAfter 10) ∧
    ((allocTSides (startMemoryTest none 11 initState).1).get? 6 = some 1024 ∧
      1024 = gradualTextureSide 6) ∧
    (gradualTextureSide 5 ≠ gradualTextureSide 6 ↔ (5 = 5 ∨ 5 = 15 ∨ 5 = 25)) :=
  ⟨⟨by decide, c2_gradual_escalation.1 none 11 10
      (min (gradualStartSize * growFactor) bufferSizeCap) (by decide)⟩,
   ⟨by decide, c2_gradual_escalation.2.1 none 11 6 1024 (by decide)⟩,
   c2_gradual_escalation.2.2.2.2.2.2 5⟩

end WebGPUMemBench
